import Mathlib

/-!
Verification of the IGUANE figure-of-merit engine.

Shallow embedding of `src/iguane/fom.py` and the aggregation branch of
`src/iguane/__main__.py`.  Python floats are modelled as exact rationals
(`ℚ`); every identity checked here also holds for the binary64 runs of the
concrete scenarios in the spec.  Fallible Python code (KeyError,
ZeroDivisionError, TypeError) is modelled with `Except PyErr`.

The device catalog `rawdata.toml` is a data resource that is not part of
`src/`; its contents are mirrored from the `RAWDATA` literal in
`src/iguane.py` (the single-file variant of the same program, which ships
the identical table inline), where a missing fp16/tf32 hardware path is
recorded as `None`.  We model those two fields as `Option ℚ` with `none`
for an absent path; the spec (section 3) documents exactly this shape.
-/

namespace Iguane

/-- Python exceptions that the modelled code can raise: `KeyError k` from a
dict subscript, `ZeroDivisionError` from `x / 0`, and `TypeError` from
arithmetic on `None` (or on a string). -/
inductive PyErr where
  | keyError (k : String)
  | zeroDivisionError
  | typeError
deriving DecidableEq

/-- A Python value as stored in one slot of a device record: a float
(modelled as `ℚ`), a string (the `reldate` metadata), or `None`. -/
inductive PyVal where
  | num (q : ℚ)
  | str (s : String)
  | none
deriving DecidableEq

/-- One catalog record, with the fields of the `dict(...)` literals of
`src/iguane.py` in their insertion order.  `fp16`/`tf32` are `none` when the
device has no dedicated hardware path. -/
structure DeviceRecord where
  fp16 : Option ℚ
  fp32 : ℚ
  fp64 : ℚ
  tf32 : Option ℚ
  memgb : ℚ
  membw : ℚ
  tdp : ℚ
  reldate : String

/-- View an optional float slot as the Python value it holds. -/
def optVal : Option ℚ → PyVal
  | Option.none => PyVal.none
  | some q => PyVal.num q

/-- Python dict subscript `record[k]` on a device record: returns the value held in the slot, or raises `KeyError k` for an unknown key. -/
def DeviceRecord.get (r : DeviceRecord) (k : String) : Except PyErr PyVal :=
  if k = "fp16" then .ok (optVal r.fp16)
  else if k = "fp32" then .ok (.num r.fp32)
  else if k = "fp64" then .ok (.num r.fp64)
  else if k = "tf32" then .ok (optVal r.tf32)
  else if k = "memgb" then .ok (.num r.memgb)
  else if k = "membw" then .ok (.num r.membw)
  else if k = "tdp" then .ok (.num r.tdp)
  else if k = "reldate" then .ok (.str r.reldate)
  else .error (.keyError k)

/-- Python `x or y` on an optional float slot: `None` and `0.0` are falsy,
so both fall through to `y`; any other number is returned unchanged. -/
def pyOr : Option ℚ → ℚ → ℚ
  | Option.none, b => b
  | some a, b => if a = 0 then b else a

/-- Lines 105-106 of `fom.py`:
`data["tf32"] = data["tf32"] or data["fp32"]` and likewise for fp16,
performed on a copy of the record of the queried device. -/
def patchRecord (r : DeviceRecord) : DeviceRecord :=
  { r with tf32 := some (pyOr r.tf32 r.fp32), fp16 := some (pyOr r.fp16 r.fp32) }

/-- Python `w * v` for a float `w` and a record slot `v`: arithmetic on
`None` or on a string raises `TypeError`. -/
def pyMul (w : ℚ) : PyVal → Except PyErr ℚ
  | PyVal.num d => .ok (w * d)
  | _ => .error .typeError

/-- Python `n / v` for a float `n` and a record slot `v`: division by the
float zero raises `ZeroDivisionError`; division by `None` or by a string
raises `TypeError`. -/
def pyDiv (n : ℚ) : PyVal → Except PyErr ℚ
  | PyVal.num r => if r = 0 then .error .zeroDivisionError else .ok (n / r)
  | _ => .error .typeError

/-- The catalog: an insertion-ordered mapping from device name to record,
as the parsed `rawdata.toml` (equivalently, the `RAWDATA` dict literal of
`src/iguane.py`). -/
abbrev Catalog := List (String × DeviceRecord)

/-- `RAWDATA`, mirrored entry by entry from `src/iguane.py`. -/
def RAWDATA : Catalog := [
  ("K80",             ⟨Option.none,    4.368,      1.456,    Option.none,    12, 240, 150, "2014-11-17"⟩),
  ("M40",             ⟨Option.none,    6.844416,   0.213888, Option.none,    12, 288, 250, "2015-11-10"⟩),
  ("P100-PCIe-12GB",  ⟨some 18.679808, 9.339904,   4.669952, Option.none,    12, 549, 250, "2016-06-20"⟩),
  ("P100-PCIe-16GB",  ⟨some 18.679808, 9.339904,   4.669952, Option.none,    16, 732, 250, "2016-06-20"⟩),
  ("P100-SXM2-16GB",  ⟨some 21.21728,  10.60864,   5.30432,  Option.none,    16, 732, 300, "2016-04-05"⟩),
  ("V100-PCIe-16GB",  ⟨some 112.2304,  14.0288,    7.0144,   Option.none,    16, 900, 250, "2017-06-21"⟩),
  ("V100-PCIe-32GB",  ⟨some 112.2304,  14.0288,    7.0144,   Option.none,    32, 900, 250, "2018-03-27"⟩),
  ("V100-SXM2-16GB",  ⟨some 125.3376,  15.6672,    7.8336,   Option.none,    16, 900, 300, "2017-05-10"⟩),
  ("V100-SXM2-32GB",  ⟨some 125.3376,  15.6672,    7.8336,   Option.none,    32, 900, 300, "2018-03-27"⟩),
  ("V100S-PCIe-32GB", ⟨some 130.82624, 16.35328,   8.17664,  Option.none,    32, 1134, 250, "2019-11-26"⟩),
  ("RTX-2080",        ⟨some 80.54784,  10.06848,   0.31464,  Option.none,    8,  448, 215, "2018-09-20"⟩),
  ("RTX-2080-Super",  ⟨some 89.21088,  11.15136,   0.34848,  Option.none,    8,  496, 250, "2019-07-23"⟩),
  ("RTX-2080-Ti",     ⟨some 107.58144, 13.44768,   0.42024,  Option.none,    11, 616, 250, "2018-09-27"⟩),
  ("TITAN-RTX",       ⟨some 130.49856, 16.31232,   0.50976,  Option.none,    24, 672, 280, "2018-12-18"⟩),
  ("T4",              ⟨some 65.1264,   8.1408,     0.2544,   Option.none,    16, 300, 70,  "2018-09-12"⟩),
  ("RTX8000",         ⟨some 130.49856, 16.31232,   0.50976,  Option.none,    48, 672, 260, "2018-08-13"⟩),
  ("A100-PCIe-40GB",  ⟨some 311.86944, 19.49184,   9.74592,  some 155.93472, 40, 1555, 250, "2020-05-14"⟩),
  ("A100-PCIe-80GB",  ⟨some 311.86944, 19.49184,   9.74592,  some 155.93472, 80, 1555, 250, "2021-06-28"⟩),
  ("A100-SXM4-40GB",  ⟨some 311.86944, 19.49184,   9.74592,  some 155.93472, 40, 1555, 400, "2020-05-14"⟩),
  ("A100-SXM4-80GB",  ⟨some 311.86944, 19.49184,   9.74592,  some 155.93472, 80, 1555, 400, "2020-11-16"⟩),
  ("A5000",           ⟨some 111.08352, 27.77088,   0.43392,  some 55.54176,  24, 768, 230, "2021-04-12"⟩),
  ("A6000",           ⟨some 154.8288,  38.7072,    0.6048,   some 77.4144,   48, 768, 300, "2020-10-05"⟩),
  ("RTX-4080",        ⟨some 194.94912, 48.73728,   0.76152,  some 97.47456,  16, 717, 320, "2022-11-16"⟩),
  ("RTX-4080-Super",  ⟨some 208.896,   52.224,     0.816,    some 104.448,   16, 736, 425, "2024-01-31"⟩),
  ("RTX-4090-Laptop", ⟨some 200.78592, 50.19648,   0.78432,  some 100.39296, 16, 576, 150, "2023-02-08"⟩),
  ("RTX-4090",        ⟨some 330.30144, 82.57536,   1.29024,  some 165.15072, 24, 1008, 450, "2022-10-12"⟩),
  ("L40S",            ⟨some 366.42816, 91.60704,   1.43136,  some 183.21408, 48, 864, 350, "2023-08-08"⟩),
  ("H100-PCIe-80GB",  ⟨some 756.44928, 51.21792,   25.60896, some 378.22464, 80, 2039, 350, "2022-03-22"⟩),
  ("H100-SXM5-80GB",  ⟨some 989.42976, 66.90816,   33.45408, some 494.71488, 80, 3352, 700, "2022-03-22"⟩),
  ("H100-NVL-94GB",   ⟨some 835.5,     60.0,       30.0,     some 417.25,    94, 3938, 400, "2023-03-21"⟩)]

/-- `fom_count` of `fom.py`: the constant 1.  The catalog argument is kept
for a uniform signature with the other per-device variants. -/
def fom_count (_cat : Catalog) (_name : String) : Except PyErr ℚ := .ok 1

/-- `fom_fp16` of `fom.py`: the fp16 slot, falling through to fp32 when
falsy. -/
def fom_fp16 (cat : Catalog) (name : String) : Except PyErr ℚ :=
  match List.lookup name cat with
  | some d => .ok (pyOr d.fp16 d.fp32)
  | Option.none => .error (.keyError name)

/-- `fom_fp32` of `fom.py`: the fp32 slot. -/
def fom_fp32 (cat : Catalog) (name : String) : Except PyErr ℚ :=
  match List.lookup name cat with
  | some d => .ok d.fp32
  | Option.none => .error (.keyError name)

/-- `fom_fp64` of `fom.py`: the fp64 slot. -/
def fom_fp64 (cat : Catalog) (name : String) : Except PyErr ℚ :=
  match List.lookup name cat with
  | some d => .ok d.fp64
  | Option.none => .error (.keyError name)

/-- `fom_tf32` of `fom.py`: the tf32 slot, falling through to fp32 when
falsy. -/
def fom_tf32 (cat : Catalog) (name : String) : Except PyErr ℚ :=
  match List.lookup name cat with
  | some d => .ok (pyOr d.tf32 d.fp32)
  | Option.none => .error (.keyError name)

/-- A weight specification as consumed by `fom_custom_weights`: the JSON
object `{"ref": ..., field: weight, ...}` with the `"ref"` entry separated
out (the pop of the ref key raises `KeyError "ref"` exactly when `ref` is
`none` here), and the remaining field weights in insertion order. -/
structure WeightSpec where
  ref : Option String
  weights : List (String × ℚ)

/-- The argument namespace the CLI hands to the FOM functions: the selected
profile version, the optional ad-hoc custom weights, and the `--norm`
flag. -/
structure Args where
  fom_version : String
  custom_weights : Option WeightSpec
  norm : Bool

/-- `FOM_VERSIONS_WEIGHTS` of `fom.py`, entries and weight order as in the
source dict literal. -/
def FOM_VERSIONS_WEIGHTS : List (String × WeightSpec) := [
  ("1.0",    ⟨some "A100-SXM4-40GB", [("fp16", 1.6), ("fp32", 1.6), ("memgb", 0.8)]⟩),
  ("ugr",    ⟨some "A100-SXM4-40GB", [("fp16", 1.6), ("fp32", 1.6), ("memgb", 0.8)]⟩),
  ("2.0-0",  ⟨some "A100-SXM4-80GB", [("fp16", 0.2), ("fp32", 0.1), ("tf32", 0.2), ("memgb", 0.25), ("membw", 0.25)]⟩),
  ("iguane", ⟨some "A100-SXM4-80GB", [("fp16", 0.2), ("fp32", 0.2), ("tf32", 0.2), ("memgb", 0.2), ("membw", 0.2)]⟩)]

/-- Lines 98-99 of `fom.py`: take the ad-hoc custom weights when given,
otherwise look the selected version up in the registry (a bad version id
raises `KeyError`). -/
def effectiveSpec (args : Args) : Except PyErr WeightSpec :=
  match args.custom_weights with
  | some w => .ok w
  | Option.none =>
    match List.lookup args.fom_version FOM_VERSIONS_WEIGHTS with
    | some w => .ok w
    | Option.none => .error (.keyError args.fom_version)

/-- Lines 108-110 of `fom.py`: with `--norm`, each weight is divided by the
sum of all weights.  The dict comprehension raises `ZeroDivisionError` on
its first item when the sum is zero, hence no error for an empty weight
mapping. -/
def normalizeWeights (ws : List (String × ℚ)) : Except PyErr (List (String × ℚ)) :=
  match ws with
  | [] => .ok []
  | _ :: _ =>
    let s := (ws.map Prod.snd).sum
    if s = 0 then .error .zeroDivisionError
    else .ok (ws.map (fun kw => (kw.1, kw.2 / s)))

/-- Lines 112-117 of `fom.py`: the accumulation loop
`_sum = 0; for k, w in weights.items(): _sum += w * data[k] / ref[k]`,
evaluated left to right with the Python evaluation order inside each
iteration (`data[k]` first, then the product, then `ref[k]`, then the
division). -/
def sumContribs (data ref : DeviceRecord) (acc : ℚ) : List (String × ℚ) → Except PyErr ℚ
  | [] => .ok acc
  | (k, w) :: rest =>
    match data.get k with
    | .error e => .error e
    | .ok dv =>
      match pyMul w dv with
      | .error e => .error e
      | .ok n =>
        match ref.get k with
        | .error e => .error e
        | .ok rv =>
          match pyDiv n rv with
          | .error e => .error e
          | .ok c => sumContribs data ref (acc + c) rest

/-- `fom_custom_weights` of `fom.py` (lines 97-117), with the catalog as an
explicit parameter standing for the module-level `RAWDATA`.  Mirrors the
source order: resolve the weights, pop and resolve the reference, look up
and patch (a copy of) the queried record, optionally normalize the
weights, then accumulate the weighted ratios. -/
def fom_custom_weights (cat : Catalog) (name : String) (args : Args) : Except PyErr ℚ :=
  match effectiveSpec args with
  | .error e => .error e
  | .ok spec =>
    match spec.ref with
    | Option.none => .error (.keyError "ref")
    | some refName =>
      match List.lookup refName cat with
      | Option.none => .error (.keyError refName)
      | some ref =>
        match List.lookup name cat with
        | Option.none => .error (.keyError name)
        | some data0 =>
          match (if args.norm then normalizeWeights spec.weights else .ok spec.weights) with
          | .error e => .error e
          | .ok ws => sumContribs (patchRecord data0) ref 0 ws

/-- Modelled from the spec (section 4.3 step 2): the variant of the
computation in which the fp16/tf32 fallback is applied *also to the
reference record* before ratios are taken ("Apply the identical fallback to
the reference record before taking ratios").  This definition follows the
wording of the spec, not the source; it exists to be compared with
`fom_custom_weights`, which patches only the record of the queried
device. -/
def computeWithRefFallback (cat : Catalog) (name : String) (args : Args) : Except PyErr ℚ :=
  match effectiveSpec args with
  | .error e => .error e
  | .ok spec =>
    match spec.ref with
    | Option.none => .error (.keyError "ref")
    | some refName =>
      match List.lookup refName cat with
      | Option.none => .error (.keyError refName)
      | some ref0 =>
        match List.lookup name cat with
        | Option.none => .error (.keyError name)
        | some data0 =>
          match (if args.norm then normalizeWeights spec.weights else .ok spec.weights) with
          | .error e => .error e
          | .ok ws => sumContribs (patchRecord data0) (patchRecord ref0) 0 ws

/-- The aggregation result of the `--input` branch of `__main__.py`: the
`breakdown` key is deleted when empty, modelled as an `Option`. -/
structure AggResult where
  breakdown : Option (List (String × ℚ))
  total : ℚ

/-- The dict comprehension of `__main__.py` lines 114-118:
`{k: c * FOM[unit](k, args=args) for k, c in CLUSTER.items() if k in RAWDATA}`,
with `f` standing for the selected per-device FOM computation.  Entries
whose name is not in the catalog are silently skipped; per-device failures
propagate in item order. -/
def aggItems (cat : Catalog) (f : String → Except PyErr ℚ) : List (String × ℚ) → Except PyErr (List (String × ℚ))
  | [] => .ok []
  | (k, c) :: rest =>
    if (List.lookup k cat).isSome then
      match f k with
      | .error e => .error e
      | .ok v =>
        match aggItems cat f rest with
        | .error e => .error e
        | .ok tl => .ok ((k, c * v) :: tl)
    else aggItems cat f rest

/-- The `--input` aggregation branch of `__main__.py` (lines 111-131) with
no `--gpu` filter, no `--sort` and no `--reverse` (those are the caller-side
list operations the spec leaves outside the core): build the per-device
breakdown, total it with `sum(values, 0)`, and drop the `breakdown` key
when it is empty. -/
def aggregate (cat : Catalog) (f : String → Except PyErr ℚ) (inv : List (String × ℚ)) : Except PyErr AggResult :=
  match aggItems cat f inv with
  | .error e => .error e
  | .ok items => .ok ⟨if items.isEmpty then Option.none else some items, (items.map Prod.snd).sum⟩

/-- Python code-point comparison of strings (the order used by `sorted` on
`str`), over the character data. -/
def charsLt : List Char → List Char → Bool
  | [], [] => false
  | [], _ :: _ => true
  | _ :: _, [] => false
  | a :: as, b :: bs =>
    if a.toNat < b.toNat then true
    else if b.toNat < a.toNat then false
    else charsLt as bs

/-- Line 30 of `fom.py`: `k.replace(".", "").isdigit()` — drop every dot,
then require a nonempty all-digit remainder (the Python `str.isdigit` is
false on the empty string; the version ids here are ASCII). -/
def pyNumericDotted (s : String) : Bool :=
  let t := s.data.filter (fun c => !(c == '.'))
  (!t.isEmpty) && t.all Char.isDigit

/-- Insert into an ascending list, comparing as Python `sorted` does. -/
def insertAsc (a : String) : List String → List String
  | [] => [a]
  | b :: bs => if charsLt b.data a.data then b :: insertAsc a bs else a :: b :: bs

/-- Ascending sort of strings, as Python `sorted`. -/
def sortAsc (l : List String) : List String := l.foldr insertAsc []

/-- The key list of the registry, in dict insertion order. -/
def FOMVersionKeys : List String := FOM_VERSIONS_WEIGHTS.map Prod.fst

/-- `_CURRENT_FOM_VERSION` of `fom.py` (lines 28-32):
`list(reversed(sorted(k for k in keys if k.replace(".", "").isdigit())))[0]`,
with the final `[0]` modelled as `head?` (Python would raise `IndexError`
on an empty candidate list). -/
def CURRENT_FOM_VERSION : Option String :=
  ((sortAsc (FOMVersionKeys.filter pyNumericDotted)).reverse).head?

/-- Split character data on dots (Python `s.split "."` shape). -/
def splitDots : List Char → List (List Char)
  | [] => [[]]
  | c :: cs =>
    if c == '.' then [] :: splitDots cs
    else
      match splitDots cs with
      | [] => [[c]]
      | g :: gs => (c :: g) :: gs

/-- Read a digit group as a number (used only on all-digit groups). -/
def digitsToNat (l : List Char) : ℕ := l.foldl (fun n c => 10 * n + (c.toNat - 48)) 0

/-- Modelled from the spec (section 4.2 `latest()`): the numeric components
of a dotted version identifier. -/
def verComps (s : String) : List ℕ := (splitDots s.data).map digitsToNat

/-- Componentwise comparison of equal-length component lists. -/
def lexListLe : List ℕ → List ℕ → Bool
  | [], [] => true
  | [], _ :: _ => true
  | _ :: _, [] => false
  | a :: as, b :: bs =>
    if a < b then true
    else if b < a then false
    else lexListLe as bs

/-- Pad a component list with zeros up to length `n` ("missing components
treated as 0"). -/
def padZ (l : List ℕ) (n : ℕ) : List ℕ := l ++ List.replicate (n - l.length) 0

/-- Modelled from the spec (section 4.2 `latest()`): "standard
dotted-version comparison (component-wise numeric compare, missing
components treated as 0)".  This follows the wording of the spec, to be
compared with the plain string sort of the source. -/
def dottedVerLe (a b : String) : Bool :=
  let ca := verComps a
  let cb := verComps b
  let n := max ca.length cb.length
  lexListLe (padZ ca n) (padZ cb n)

/-- The catalog record of device A100-SXM4-40GB (used by the concrete
scenarios of spec section 8). -/
def a100r40 : DeviceRecord := ⟨some 311.86944, 19.49184, 9.74592, some 155.93472, 40, 1555, 400, "2020-05-14"⟩

/-- The catalog record of device K80 (both optional hardware paths
absent). -/
def k80r : DeviceRecord := ⟨Option.none, 4.368, 1.456, Option.none, 12, 240, 150, "2014-11-17"⟩

/-- The field weights of registry profile "1.0". -/
def w10 : List (String × ℚ) := [("fp16", 1.6), ("fp32", 1.6), ("memgb", 0.8)]

/-- A one-device catalog whose reference candidate lacks tf32 and has a
zero memgb slot (exercises the order in which failures surface). -/
def c7cat : Catalog := [("R", ⟨some 1, 1, 1, Option.none, 0, 1, 1, ""⟩)]

/-- A one-device catalog whose record has a zero memgb slot and both
optional paths present. -/
def zerocat : Catalog := [("Z", ⟨some 1, 1, 1, some 1, 0, 1, 1, ""⟩)]

/-- A one-device catalog whose record has fp16 and tf32 present but equal
to zero. -/
def tcat : Catalog := [("Z0", ⟨some 0, 2, 1, some 0, 3, 4, 5, ""⟩)]

/-- The inventory of the concrete scenario in spec section 8: a catalog
device and an unknown one. -/
def inv0 : List (String × ℚ) := [("A100-SXM4-40GB", 10), ("UnknownGPU-X", 5)]

/-! ## Helper lemmas -/

theorem lookup_a100 : List.lookup "A100-SXM4-40GB" RAWDATA = some a100r40 := rfl

theorem lookup_k80 : List.lookup "K80" RAWDATA = some k80r := rfl

/-- Unfolding of `fom_custom_weights` once every lookup has been
resolved. -/
theorem evalCustom (cat : Catalog) (name : String) (args : Args) (spec : WeightSpec)
    (refName : String) (rrec drec : DeviceRecord) (ws' : List (String × ℚ))
    (h1 : effectiveSpec args = .ok spec) (h2 : spec.ref = some refName)
    (h3 : List.lookup refName cat = some rrec) (h4 : List.lookup name cat = some drec)
    (h5 : (if args.norm then normalizeWeights spec.weights else .ok spec.weights) = .ok ws') :
    fom_custom_weights cat name args = sumContribs (patchRecord drec) rrec 0 ws' := by
  simp only [fom_custom_weights, h1, h2, h3, h4, h5]

/-- Unfolding of `computeWithRefFallback` once every lookup has been
resolved. -/
theorem evalRefFallback (cat : Catalog) (name : String) (args : Args) (spec : WeightSpec)
    (refName : String) (rrec drec : DeviceRecord) (ws' : List (String × ℚ))
    (h1 : effectiveSpec args = .ok spec) (h2 : spec.ref = some refName)
    (h3 : List.lookup refName cat = some rrec) (h4 : List.lookup name cat = some drec)
    (h5 : (if args.norm then normalizeWeights spec.weights else .ok spec.weights) = .ok ws') :
    computeWithRefFallback cat name args = sumContribs (patchRecord drec) (patchRecord rrec) 0 ws' := by
  simp only [computeWithRefFallback, h1, h2, h3, h4, h5]

/-- A nonzero numeric slot survives `patchRecord` unchanged. -/
theorem patch_get_self (r : DeviceRecord) (k : String) (v : ℚ)
    (h : r.get k = .ok (.num v)) (hv : v ≠ 0) :
    (patchRecord r).get k = .ok (.num v) := by
  unfold DeviceRecord.get at h ⊢
  unfold patchRecord
  simp only at h ⊢
  split_ifs at h ⊢ <;>
    simp_all [optVal, pyOr] <;>
    (cases hx : r.fp16 <;> cases hy : r.tf32 <;> simp_all [optVal, pyOr])

/-- A key that is numeric on one record is numeric on any patched
record. -/
theorem patch_get_num (r r2 : DeviceRecord) (k : String) (v : ℚ)
    (h : r.get k = .ok (.num v)) : ∃ u, (patchRecord r2).get k = .ok (.num u) := by
  unfold DeviceRecord.get at h ⊢
  unfold patchRecord
  simp only at h ⊢
  split_ifs at h ⊢ <;> simp_all [optVal]

/-- The accumulation loop over a record ratioed against itself sums the
weights, provided every weighted slot is numeric and nonzero. -/
theorem sumContribs_selfRef (r : DeviceRecord) (ws : List (String × ℚ)) (acc : ℚ)
    (h : ∀ kw ∈ ws, ∃ v, r.get kw.1 = .ok (.num v) ∧ v ≠ 0) :
    sumContribs (patchRecord r) r acc ws = .ok (acc + (ws.map Prod.snd).sum) := by
  induction ws generalizing acc with
  | nil => simp [sumContribs]
  | cons kw rest ih =>
    obtain ⟨v, hv, hv0⟩ := h kw (List.mem_cons_self kw rest)
    obtain ⟨k, w⟩ := kw
    rw [sumContribs, patch_get_self r k v hv hv0, hv]
    simp only [pyMul, pyDiv, if_neg hv0]
    rw [ih _ (fun kw hkw => h kw (List.mem_cons_of_mem _ hkw))]
    have : w * v / v = w := by field_simp
    rw [this]
    simp [List.map_cons, List.sum_cons]
    ring_nf

/-- `normalizeWeights` on a weight list with nonzero sum divides every
weight by that sum. -/
theorem normalizeWeights_ok (ws : List (String × ℚ)) (h0 : (ws.map Prod.snd).sum ≠ 0) :
    normalizeWeights ws = .ok (ws.map (fun kw => (kw.1, kw.2 / (ws.map Prod.snd).sum))) := by
  cases ws with
  | nil => simp at h0
  | cons a l =>
    have h0' : ¬a.2 + (List.map Prod.snd l).sum = 0 := by simpa using h0
    simp [normalizeWeights, h0']

/-- `normalizeWeights` on a nonempty weight list with zero sum raises
`ZeroDivisionError`. -/
theorem normalizeWeights_zero (ws : List (String × ℚ)) (hne : ws ≠ [])
    (h0 : (ws.map Prod.snd).sum = 0) :
    normalizeWeights ws = .error .zeroDivisionError := by
  cases ws with
  | nil => exact absurd rfl hne
  | cons a l =>
    have h0' : a.2 + (List.map Prod.snd l).sum = 0 := by simpa using h0
    simp [normalizeWeights, h0']

/-- Scaling every weight by `1 / s` scales the accumulated result by
`1 / s` and leaves the error behaviour unchanged. -/
theorem sumContribs_scale (d r : DeviceRecord) (s : ℚ) (hs : s ≠ 0) :
    ∀ (ws : List (String × ℚ)) (acc : ℚ),
      sumContribs d r (acc / s) (ws.map (fun kw => (kw.1, kw.2 / s))) =
      Except.map (fun x => x / s) (sumContribs d r acc ws) := by
  intro ws
  induction ws with
  | nil => intro acc; simp [sumContribs, Except.map]
  | cons kw rest ih =>
    intro acc
    obtain ⟨k, w⟩ := kw
    simp only [List.map_cons, sumContribs]
    cases hdv : d.get k with
    | error e => simp [Except.map]
    | ok dv =>
      cases dv with
      | num q =>
        simp only [pyMul]
        cases hrv : r.get k with
        | error e => simp [Except.map]
        | ok rv =>
          cases rv with
          | num rq =>
            simp only [pyDiv]
            by_cases hr0 : rq = 0
            · simp [hr0, Except.map]
            · simp only [if_neg hr0]
              have harith : acc / s + w / s * q / rq = (acc + w * q / rq) / s := by
                field_simp
                ring
              rw [harith, ih]
          | str t => simp [pyDiv, Except.map]
          | none => simp [pyDiv, Except.map]
      | str t => simp [pyMul, Except.map]
      | none => simp [pyMul, Except.map]

/-- If every weighted slot is numeric on both records and some weighted
slot of the reference is zero, the loop raises `ZeroDivisionError`. -/
theorem sumContribs_zeroRef (d r : DeviceRecord) :
    ∀ (ws : List (String × ℚ)) (acc : ℚ),
      (∀ kw ∈ ws, ∃ u, d.get kw.1 = .ok (.num u)) →
      (∀ kw ∈ ws, ∃ v, r.get kw.1 = .ok (.num v)) →
      (∃ kw ∈ ws, r.get kw.1 = .ok (.num 0)) →
      sumContribs d r acc ws = .error .zeroDivisionError := by
  intro ws
  induction ws with
  | nil => intro acc _ _ hex; simp at hex
  | cons kw rest ih =>
    intro acc hd hr hex
    obtain ⟨k, w⟩ := kw
    obtain ⟨u, hu⟩ := hd (k, w) (List.mem_cons_self _ _)
    obtain ⟨v, hv⟩ := hr (k, w) (List.mem_cons_self _ _)
    rw [sumContribs, hu]
    simp only [pyMul, hv, pyDiv]
    by_cases h0 : v = 0
    · simp [h0]
    · simp only [if_neg h0]
      apply ih
      · exact fun kw hkw => hd kw (List.mem_cons_of_mem _ hkw)
      · exact fun kw hkw => hr kw (List.mem_cons_of_mem _ hkw)
      · obtain ⟨kw0, hkw0, hz⟩ := hex
        rcases List.mem_cons.mp hkw0 with heq | hmem
        · exfalso
          apply h0
          rw [heq] at hz
          rw [hv] at hz
          injection hz with hz'
          injection hz'
        · exact ⟨kw0, hmem, hz⟩

/-- The comprehension of the aggregation branch keeps exactly the
catalog names and multiplies each count by the per-device result. -/
theorem aggItems_eval (cat : Catalog) (f : String → Except PyErr ℚ) :
    ∀ (inv : List (String × ℚ)) (g : String → ℚ),
      (∀ kc ∈ inv, (List.lookup kc.1 cat).isSome → f kc.1 = .ok (g kc.1)) →
      aggItems cat f inv =
        .ok ((inv.filter (fun kc => (List.lookup kc.1 cat).isSome)).map (fun kc => (kc.1, kc.2 * g kc.1))) := by
  intro inv
  induction inv with
  | nil => intro g _; simp [aggItems]
  | cons kc rest ih =>
    intro g h
    obtain ⟨k, c⟩ := kc
    rw [aggItems]
    by_cases hk : (List.lookup k cat).isSome
    · rw [if_pos hk, h (k, c) (List.mem_cons_self _ _) hk,
          ih g (fun kc hkc => h kc (List.mem_cons_of_mem _ hkc))]
      simp [List.filter_cons, hk]
    · rw [if_neg hk, ih g (fun kc hkc => h kc (List.mem_cons_of_mem _ hkc))]
      simp only [List.filter_cons]
      rw [if_neg (by simpa using hk)]

/-- Concrete evaluation: profile "1.0" on its own reference device. -/
theorem fom10_a100 : fom_custom_weights RAWDATA "A100-SXM4-40GB" ⟨"1.0", Option.none, false⟩ = .ok 4 := by
  rw [evalCustom RAWDATA "A100-SXM4-40GB" ⟨"1.0", Option.none, false⟩ ⟨some "A100-SXM4-40GB", w10⟩
      "A100-SXM4-40GB" a100r40 a100r40 w10 rfl rfl lookup_a100 lookup_a100 rfl]
  simp [sumContribs, patchRecord, pyOr, a100r40, w10, DeviceRecord.get, optVal, pyMul, pyDiv]
  norm_num

/-! ## Claims C1 and C2 -/

/-- Claim C1, counterexample.  The claim states that for every profile
whose reference device is d, the unnormalized result equals the sum of the
weight values.  For d = K80 (tf32 absent) and the profile weighting only
tf32, the code instead fails with `TypeError`: the fallback patches only
the queried record, while the raw reference record still holds `None` for
tf32 and the division by `None` fails. -/
theorem selfRatio_cex :
    fom_custom_weights RAWDATA "K80" ⟨"1.0", some ⟨some "K80", [("tf32", 1)]⟩, false⟩ = .error .typeError := rfl

/-- Claim C1, amended.  Self-ratio law restricted to profiles whose
reference device carries a present, nonzero value for every weighted
field: there the unnormalized result equals the sum of the weight values.
In particular the concrete scenario of the spec holds: profile "1.0" on
device A100-SXM4-40GB gives exactly 4 unnormalized and exactly 1
normalized. -/
theorem selfRatio_amended :
    (∀ (cat : Catalog) (name ver : String) (spec : WeightSpec) (rec : DeviceRecord),
      spec.ref = some name → List.lookup name cat = some rec →
      (∀ kw ∈ spec.weights, ∃ v, rec.get kw.1 = .ok (.num v) ∧ v ≠ 0) →
      fom_custom_weights cat name ⟨ver, some spec, false⟩ = .ok ((spec.weights.map Prod.snd).sum))
    ∧ fom_custom_weights RAWDATA "A100-SXM4-40GB" ⟨"1.0", Option.none, false⟩ = .ok 4
    ∧ fom_custom_weights RAWDATA "A100-SXM4-40GB" ⟨"1.0", Option.none, true⟩ = .ok 1 := by
  refine ⟨?_, fom10_a100, ?_⟩
  · intro cat name ver spec rec h2 h4 h
    rw [evalCustom cat name ⟨ver, some spec, false⟩ spec name rec rec spec.weights rfl h2 h4 h4 rfl]
    rw [sumContribs_selfRef rec spec.weights 0 h, zero_add]
  · have h5 : (if (⟨"1.0", Option.none, true⟩ : Args).norm then normalizeWeights w10 else .ok w10) =
        .ok [("fp16", 0.4), ("fp32", 0.4), ("memgb", 0.2)] := by
      simp [normalizeWeights, w10]
      norm_num
    rw [evalCustom RAWDATA "A100-SXM4-40GB" ⟨"1.0", Option.none, true⟩ ⟨some "A100-SXM4-40GB", w10⟩
        "A100-SXM4-40GB" a100r40 a100r40 [("fp16", 0.4), ("fp32", 0.4), ("memgb", 0.2)] rfl rfl lookup_a100 lookup_a100 h5]
    simp [sumContribs, patchRecord, pyOr, a100r40, DeviceRecord.get, optVal, pyMul, pyDiv]
    norm_num

/-- Claim C1, witness: the amended self-ratio law applied to a concrete
single-field profile over the catalog. -/
theorem selfRatio_amended_app :
    fom_custom_weights RAWDATA "A100-SXM4-40GB" ⟨"x", some ⟨some "A100-SXM4-40GB", [("memgb", 2)]⟩, false⟩ = .ok 2 := by
  have h := selfRatio_amended.1 RAWDATA "A100-SXM4-40GB" "x" ⟨some "A100-SXM4-40GB", [("memgb", 2)]⟩ a100r40
    rfl lookup_a100 ?_
  · simpa using h
  · intro kw hkw
    simp only [List.mem_singleton] at hkw
    subst hkw
    exact ⟨40, by simp [a100r40, DeviceRecord.get], by norm_num⟩

/-- Claim C2, counterexample.  The claim states that the fp16/tf32
fallback is applied to the reference record as well.  On device K80 with a
profile weighting tf32 and referencing K80, the code fails with
`TypeError`, while the variant that does patch the reference (the conduct
the spec describes) returns 1.  The two computations disagree, so the
fallback is not applied to the reference. -/
theorem refFallback_cex :
    fom_custom_weights RAWDATA "K80" ⟨"1.0", some ⟨some "K80", [("tf32", 1)]⟩, false⟩ = .error .typeError
    ∧ computeWithRefFallback RAWDATA "K80" ⟨"1.0", some ⟨some "K80", [("tf32", 1)]⟩, false⟩ = .ok 1 := by
  constructor
  · exact rfl
  · rw [evalRefFallback RAWDATA "K80" ⟨"1.0", some ⟨some "K80", [("tf32", 1)]⟩, false⟩ ⟨some "K80", [("tf32", 1)]⟩
        "K80" k80r k80r [("tf32", 1)] rfl rfl lookup_k80 lookup_k80 rfl]
    simp [sumContribs, patchRecord, pyOr, k80r, DeviceRecord.get, optVal, pyMul, pyDiv]
    norm_num

/-- Claim C2, amended.  The fallback is applied only to the queried
record; the reference record is used raw, so a profile that weights tf32
(respectively fp16) and whose reference device lacks that field fails with
`TypeError` instead of falling back to the reference fp32 value. -/
theorem refFallback_amended :
    ∀ (cat : Catalog) (name refName ver : String) (w : ℚ) (drec rrec : DeviceRecord),
      List.lookup name cat = some drec → List.lookup refName cat = some rrec →
      ((rrec.tf32 = Option.none →
        fom_custom_weights cat name ⟨ver, some ⟨some refName, [("tf32", w)]⟩, false⟩ = .error .typeError) ∧
       (rrec.fp16 = Option.none →
        fom_custom_weights cat name ⟨ver, some ⟨some refName, [("fp16", w)]⟩, false⟩ = .error .typeError)) := by
  intro cat name refName ver w drec rrec hd hr
  constructor
  · intro h32
    rw [evalCustom cat name ⟨ver, some ⟨some refName, [("tf32", w)]⟩, false⟩ ⟨some refName, [("tf32", w)]⟩
        refName rrec drec [("tf32", w)] rfl rfl hr hd rfl]
    simp [sumContribs, patchRecord, DeviceRecord.get, optVal, pyMul, pyDiv, h32]
  · intro h16
    rw [evalCustom cat name ⟨ver, some ⟨some refName, [("fp16", w)]⟩, false⟩ ⟨some refName, [("fp16", w)]⟩
        refName rrec drec [("fp16", w)] rfl rfl hr hd rfl]
    simp [sumContribs, patchRecord, DeviceRecord.get, optVal, pyMul, pyDiv, h16]

/-- Claim C2, witness: the amended statement applied to the catalog
devices V100-SXM2-16GB (queried) and K80 (reference lacking both optional
paths). -/
theorem refFallback_amended_app :
    fom_custom_weights RAWDATA "V100-SXM2-16GB" ⟨"1.0", some ⟨some "K80", [("tf32", 2)]⟩, false⟩ = .error .typeError
    ∧ fom_custom_weights RAWDATA "V100-SXM2-16GB" ⟨"1.0", some ⟨some "K80", [("fp16", 2)]⟩, false⟩ = .error .typeError := by
  have h := refFallback_amended RAWDATA "V100-SXM2-16GB" "K80" "1.0" 2
    ⟨some 125.3376, 15.6672, 7.8336, Option.none, 16, 900, 300, "2017-05-10"⟩ k80r rfl lookup_k80
  exact ⟨h.1 rfl, h.2 rfl⟩

/-! ## Claims C3 and C4 -/

/-- Claim C3, confirmed.  Aggregation law: when the per-device computation
succeeds on every inventory name present in the catalog, the aggregate
succeeds; its total is the sum over the catalog names of the inventory of
count times per-device value; every breakdown entry names an inventory
device that is in the catalog (unknown names are silently dropped and
never appear); and an inventory with no catalog name at all yields total 0
with the breakdown omitted. -/
theorem aggregation_law :
    ∀ (cat : Catalog) (f : String → Except PyErr ℚ) (inv : List (String × ℚ)) (g : String → ℚ),
      (∀ kc ∈ inv, (List.lookup kc.1 cat).isSome → f kc.1 = .ok (g kc.1)) →
      ∃ res, aggregate cat f inv = .ok res
        ∧ res.total = ((inv.filter (fun kc => (List.lookup kc.1 cat).isSome)).map (fun kc => kc.2 * g kc.1)).sum
        ∧ (∀ b, res.breakdown = some b → ∀ kc ∈ b, (List.lookup kc.1 cat).isSome ∧ kc.1 ∈ inv.map Prod.fst)
        ∧ ((∀ kc ∈ inv, (List.lookup kc.1 cat).isSome = false) → res = ⟨Option.none, 0⟩) := by
  intro cat f inv g h
  have hitems := aggItems_eval cat f inv g h
  refine ⟨_, by rw [aggregate, hitems], ?_, ?_, ?_⟩
  · simp [List.map_map, Function.comp_def]
  · intro b hb kc hkc
    by_cases he : ((inv.filter (fun kc => (List.lookup kc.1 cat).isSome)).map (fun kc => (kc.1, kc.2 * g kc.1))).isEmpty
    · simp only [he, if_pos] at hb
      exact absurd hb (by simp)
    · simp only [he, if_neg, Bool.false_eq_true, not_false_iff] at hb
      rw [← Option.some.inj hb] at hkc
      obtain ⟨kc0, hkc0, hkeq⟩ := List.mem_map.mp hkc
      have hmem := List.mem_filter.mp hkc0
      constructor
      · rw [← hkeq]
        exact hmem.2
      · rw [← hkeq]
        exact List.mem_map.mpr ⟨kc0, hmem.1, rfl⟩
  · intro hnone
    have hfilter : inv.filter (fun kc => (List.lookup kc.1 cat).isSome) = [] := by
      rw [List.filter_eq_nil_iff]
      intro kc hkc
      simp [hnone kc hkc]
    simp [hfilter]

/-- Claim C3, witness: the aggregation law applied to the concrete
inventory of spec section 8 (ten A100-SXM4-40GB plus five unknown
devices) under profile "1.0". -/
theorem aggregation_law_app :
    ∃ res, aggregate RAWDATA (fun n => fom_custom_weights RAWDATA n ⟨"1.0", Option.none, false⟩) inv0 = .ok res
      ∧ res.total = ((inv0.filter (fun kc => (List.lookup kc.1 RAWDATA).isSome)).map (fun kc => kc.2 * 4)).sum
      ∧ (∀ b, res.breakdown = some b → ∀ kc ∈ b, (List.lookup kc.1 RAWDATA).isSome ∧ kc.1 ∈ inv0.map Prod.fst)
      ∧ ((∀ kc ∈ inv0, (List.lookup kc.1 RAWDATA).isSome = false) → res = ⟨Option.none, 0⟩) := by
  exact aggregation_law RAWDATA (fun n => fom_custom_weights RAWDATA n ⟨"1.0", Option.none, false⟩) inv0
    (fun _ => 4) (by
      intro kc hkc
      rcases List.mem_cons.mp hkc with heq | hmem
      · intro _
        rw [heq]
        exact fom10_a100
      · simp only [inv0, List.mem_singleton] at hmem
        rw [hmem]
        intro hcon
        exact absurd hcon (by decide))

/-- Claim C4, confirmed.  Normalization law: for every catalog, device and
selected profile whose weight sum S is nonzero, the normalized computation
equals the unnormalized one with the result divided by S (including
identical error behaviour, stated via `Except.map`). -/
theorem normalization_law :
    ∀ (cat : Catalog) (name ver : String) (cw : Option WeightSpec) (spec : WeightSpec),
      effectiveSpec ⟨ver, cw, true⟩ = .ok spec →
      (spec.weights.map Prod.snd).sum ≠ 0 →
      fom_custom_weights cat name ⟨ver, cw, true⟩ =
        Except.map (fun x => x / (spec.weights.map Prod.snd).sum)
          (fom_custom_weights cat name ⟨ver, cw, false⟩) := by
  intro cat name ver cw spec h1 hS
  have h1' : effectiveSpec ⟨ver, cw, false⟩ = .ok spec := h1
  rw [fom_custom_weights, fom_custom_weights, h1, h1']
  simp only
  cases href : spec.ref with
  | none => simp [Except.map]
  | some refName =>
    simp only
    cases hr : List.lookup refName cat with
    | none => simp [Except.map]
    | some rrec =>
      simp only
      cases hd : List.lookup name cat with
      | none => simp [Except.map]
      | some drec =>
        simp only [if_true, if_false, Bool.false_eq_true, if_neg]
        rw [normalizeWeights_ok spec.weights hS]
        have h := sumContribs_scale (patchRecord drec) rrec ((spec.weights.map Prod.snd).sum) hS spec.weights 0
        rw [zero_div] at h
        simp only [h]

/-- Claim C4, witness: the normalization law applied to profile "1.0"
(weight sum 4) on device A100-SXM4-40GB. -/
theorem normalization_law_app :
    fom_custom_weights RAWDATA "A100-SXM4-40GB" ⟨"1.0", Option.none, true⟩ =
      Except.map (fun x => x / 4)
        (fom_custom_weights RAWDATA "A100-SXM4-40GB" ⟨"1.0", Option.none, false⟩) := by
  have h := normalization_law RAWDATA "A100-SXM4-40GB" "1.0" Option.none
    ⟨some "A100-SXM4-40GB", w10⟩ rfl (by norm_num [w10])
  have hs : ((List.map Prod.snd (⟨some "A100-SXM4-40GB", w10⟩ : WeightSpec).weights).sum : ℚ) = 4 := by
    norm_num [w10]
  simp only [hs] at h
  exact h

/-! ## Claims C5 to C8 -/

/-- Claim C5, confirmed.  The default profile version is chosen among the
registered identifiers that are purely numeric dotted strings: "1.0"
qualifies while "ugr", "2.0-0" and "iguane" are excluded, the candidate
list is exactly ["1.0"], the chosen default is "1.0", and "1.0" is the
greatest candidate under the dotted-version comparison of the spec.  (The
source orders candidates by plain string sort; on the built-in registry
with its single candidate, string order and dotted-version order
coincide.) -/
theorem latestVersion_default :
    CURRENT_FOM_VERSION = some "1.0"
    ∧ FOMVersionKeys.filter pyNumericDotted = ["1.0"]
    ∧ pyNumericDotted "1.0" = true
    ∧ pyNumericDotted "ugr" = false
    ∧ pyNumericDotted "2.0-0" = false
    ∧ pyNumericDotted "iguane" = false
    ∧ (FOMVersionKeys.filter pyNumericDotted).all (fun k => dottedVerLe k "1.0") = true := by
  refine ⟨?_, ?_, ?_, ?_, ?_, ?_, ?_⟩ <;> decide

/-- Claim C6, counterexample.  The claim states that normalization with a
zero weight sum fails for every such profile.  A profile with a valid
reference and an empty weight mapping has weight sum 0, yet the code
returns 0 without error: the normalizing dict comprehension never executes
a division on an empty mapping. -/
theorem degenerateWeights_cex :
    fom_custom_weights RAWDATA "A100-SXM4-40GB" ⟨"1.0", some ⟨some "A100-SXM4-40GB", []⟩, true⟩ = .ok 0 := rfl

/-- Claim C6, amended.  When normalization is requested, the reference
resolves, the device is in the catalog and the weight mapping is nonempty
with zero sum, the computation fails with `ZeroDivisionError` (the
realization of the DegenerateWeightsError of the spec). -/
theorem degenerateWeights_amended :
    ∀ (cat : Catalog) (name : String) (args : Args) (spec : WeightSpec) (refName : String)
      (rrec drec : DeviceRecord),
      effectiveSpec args = .ok spec → args.norm = true → spec.ref = some refName →
      List.lookup refName cat = some rrec → List.lookup name cat = some drec →
      spec.weights ≠ [] → (spec.weights.map Prod.snd).sum = 0 →
      fom_custom_weights cat name args = .error .zeroDivisionError := by
  intro cat name args spec refName rrec drec h1 hn h2 h3 h4 hne h0
  rw [fom_custom_weights, h1]
  simp only [h2, h3, h4, hn, if_true]
  rw [normalizeWeights_zero spec.weights hne h0]

/-- Claim C6, witness: the amended statement applied to a nonempty
zero-sum weight mapping on device A100-SXM4-40GB. -/
theorem degenerateWeights_amended_app :
    fom_custom_weights RAWDATA "A100-SXM4-40GB"
      ⟨"z", some ⟨some "A100-SXM4-40GB", [("fp16", 1), ("fp32", -1)]⟩, true⟩ = .error .zeroDivisionError := by
  exact degenerateWeights_amended RAWDATA "A100-SXM4-40GB"
    ⟨"z", some ⟨some "A100-SXM4-40GB", [("fp16", 1), ("fp32", -1)]⟩, true⟩
    ⟨some "A100-SXM4-40GB", [("fp16", 1), ("fp32", -1)]⟩ "A100-SXM4-40GB" a100r40 a100r40
    rfl rfl rfl lookup_a100 lookup_a100 (by simp) (by norm_num)

/-- Claim C7, counterexample.  The claim states that a zero reference
value for a weighted field always produces the degenerate-reference
failure.  With a reference whose tf32 is absent and whose memgb is zero,
and a profile weighting tf32 before memgb, the computation instead fails
with `TypeError` at the tf32 ratio, although the weighted field memgb has
a zero reference value. -/
theorem degenerateReference_cex :
    fom_custom_weights c7cat "R" ⟨"v", some ⟨some "R", [("tf32", 1), ("memgb", 1)]⟩, false⟩ =
      .error .typeError := rfl

/-- Claim C7, amended.  Provided every weighted field has a numeric value
on the reference record, a zero reference value for some weighted field
makes the computation fail with `ZeroDivisionError` (the realization of
the DegenerateReferenceError of the spec), with or without
normalization. -/
theorem degenerateReference_amended :
    ∀ (cat : Catalog) (name : String) (args : Args) (spec : WeightSpec) (refName : String)
      (rrec drec : DeviceRecord),
      effectiveSpec args = .ok spec → spec.ref = some refName →
      List.lookup refName cat = some rrec → List.lookup name cat = some drec →
      (∀ kw ∈ spec.weights, ∃ v, rrec.get kw.1 = .ok (.num v)) →
      (∃ kw ∈ spec.weights, rrec.get kw.1 = .ok (.num 0)) →
      fom_custom_weights cat name args = .error .zeroDivisionError := by
  intro cat name args spec refName rrec drec h1 h2 h3 h4 hall hex
  rw [fom_custom_weights, h1]
  simp only [h2, h3, h4]
  have hdata : ∀ kw ∈ spec.weights, ∃ u, (patchRecord drec).get kw.1 = .ok (.num u) := by
    intro kw hkw
    obtain ⟨v, hv⟩ := hall kw hkw
    exact patch_get_num rrec drec kw.1 v hv
  cases hn : args.norm with
  | false =>
    simp only [Bool.false_eq_true, if_false]
    exact sumContribs_zeroRef (patchRecord drec) rrec spec.weights 0 hdata hall hex
  | true =>
    simp only [if_true]
    by_cases hS : (spec.weights.map Prod.snd).sum = 0
    · have hne : spec.weights ≠ [] := by
        obtain ⟨kw0, hkw0, _⟩ := hex
        intro hcon
        rw [hcon] at hkw0
        simp at hkw0
      rw [normalizeWeights_zero spec.weights hne hS]
    · rw [normalizeWeights_ok spec.weights hS]
      apply sumContribs_zeroRef
      · intro kw hkw
        obtain ⟨kw0, hkw0, hkeq⟩ := List.mem_map.mp hkw
        obtain ⟨u, hu⟩ := hdata kw0 hkw0
        exact ⟨u, by rw [← hkeq]; exact hu⟩
      · intro kw hkw
        obtain ⟨kw0, hkw0, hkeq⟩ := List.mem_map.mp hkw
        obtain ⟨v, hv⟩ := hall kw0 hkw0
        exact ⟨v, by rw [← hkeq]; exact hv⟩
      · obtain ⟨kw0, hkw0, hz⟩ := hex
        exact ⟨(kw0.1, kw0.2 / (spec.weights.map Prod.snd).sum),
          List.mem_map.mpr ⟨kw0, hkw0, rfl⟩, hz⟩

/-- Claim C7, witness: the amended statement applied to a catalog whose
single record has a zero memgb slot, weighted by a memgb-only profile. -/
theorem degenerateReference_amended_app :
    fom_custom_weights zerocat "Z" ⟨"v", some ⟨some "Z", [("memgb", 1)]⟩, false⟩ =
      .error .zeroDivisionError := by
  apply degenerateReference_amended zerocat "Z" ⟨"v", some ⟨some "Z", [("memgb", 1)]⟩, false⟩
    ⟨some "Z", [("memgb", 1)]⟩ "Z"
    ⟨some 1, 1, 1, some 1, 0, 1, 1, ""⟩ ⟨some 1, 1, 1, some 1, 0, 1, 1, ""⟩ rfl rfl rfl rfl
  · intro kw hkw
    simp only [List.mem_singleton] at hkw
    subst hkw
    exact ⟨0, rfl⟩
  · exact ⟨("memgb", 1), List.mem_singleton.mpr rfl, rfl⟩

/-- Claim C8, counterexample.  The claim states that a custom weight
specification is validated before computation and an unrecognized field
name fails with the invalid-weights failure.  With normalization and a
zero-sum specification containing the unrecognized key bogus, the code
fails with `ZeroDivisionError` from the normalization step instead: the
unknown key is never examined before computation. -/
theorem weightsValidation_cex :
    fom_custom_weights RAWDATA "A100-SXM4-40GB"
      ⟨"1.0", some ⟨some "A100-SXM4-40GB", [("bogus", 0)]⟩, true⟩ = .error .zeroDivisionError := by
  rw [fom_custom_weights]
  simp only [effectiveSpec, lookup_a100]
  rw [normalizeWeights_zero [("bogus", 0)] (by simp) (by norm_num)]
  simp

/-- Claim C8, amended.  Custom weight specifications are not validated up
front; the failures surface lazily, as `KeyError`: a missing ref entry
fails at the pop of the ref key, an unknown reference device fails at the
reference catalog lookup (both before any ratio), while an unrecognized
weight key only fails when its own ratio is computed, after
normalization. -/
theorem weightsValidation_amended :
    (∀ (cat : Catalog) (name : String) (args : Args) (spec : WeightSpec),
      effectiveSpec args = .ok spec → spec.ref = Option.none →
      fom_custom_weights cat name args = .error (.keyError "ref"))
    ∧ (∀ (cat : Catalog) (name : String) (args : Args) (spec : WeightSpec) (refName : String),
      effectiveSpec args = .ok spec → spec.ref = some refName →
      List.lookup refName cat = Option.none →
      fom_custom_weights cat name args = .error (.keyError refName))
    ∧ (∀ (cat : Catalog) (name : String) (args : Args) (spec : WeightSpec) (refName : String)
        (rrec drec : DeviceRecord) (k : String) (w : ℚ) (rest : List (String × ℚ)),
      effectiveSpec args = .ok spec → args.norm = false → spec.ref = some refName →
      List.lookup refName cat = some rrec → List.lookup name cat = some drec →
      spec.weights = (k, w) :: rest →
      (patchRecord drec).get k = .error (.keyError k) →
      fom_custom_weights cat name args = .error (.keyError k)) := by
  refine ⟨?_, ?_, ?_⟩
  · intro cat name args spec h1 h2
    rw [fom_custom_weights, h1]
    simp only [h2]
  · intro cat name args spec refName h1 h2 h3
    rw [fom_custom_weights, h1]
    simp only [h2, h3]
  · intro cat name args spec refName rrec drec k w rest h1 hn h2 h3 h4 hw hk
    rw [fom_custom_weights, h1]
    simp only [h2, h3, h4, hn, Bool.false_eq_true, if_false, hw]
    rw [sumContribs, hk]

/-- Claim C8, witness: the three amended failure modes at concrete
inputs (no ref entry, unknown reference device, unrecognized weight
key). -/
theorem weightsValidation_amended_app :
    fom_custom_weights RAWDATA "A100-SXM4-40GB" ⟨"q", some ⟨Option.none, []⟩, false⟩ = .error (.keyError "ref")
    ∧ fom_custom_weights RAWDATA "A100-SXM4-40GB" ⟨"q", some ⟨some "NoSuchGPU", []⟩, false⟩ = .error (.keyError "NoSuchGPU")
    ∧ fom_custom_weights RAWDATA "A100-SXM4-40GB" ⟨"q", some ⟨some "A100-SXM4-40GB", [("bogus", 1)]⟩, false⟩ = .error (.keyError "bogus") := by
  refine ⟨?_, ?_, ?_⟩
  · exact weightsValidation_amended.1 RAWDATA "A100-SXM4-40GB" ⟨"q", some ⟨Option.none, []⟩, false⟩
      ⟨Option.none, []⟩ rfl rfl
  · exact weightsValidation_amended.2.1 RAWDATA "A100-SXM4-40GB" ⟨"q", some ⟨some "NoSuchGPU", []⟩, false⟩
      ⟨some "NoSuchGPU", []⟩ "NoSuchGPU" rfl rfl rfl
  · exact weightsValidation_amended.2.2 RAWDATA "A100-SXM4-40GB"
      ⟨"q", some ⟨some "A100-SXM4-40GB", [("bogus", 1)]⟩, false⟩
      ⟨some "A100-SXM4-40GB", [("bogus", 1)]⟩ "A100-SXM4-40GB" a100r40 a100r40 "bogus" 1 []
      rfl rfl rfl lookup_a100 lookup_a100 rfl rfl

/-! ## Claims C9 and C10 -/

/-- Claim C9, confirmed.  Fallback law for the single-field variants: on
any catalog, a device whose tf32 (respectively fp16) field is absent gets
the same value from the tf32 (respectively fp16) variant as from the fp32
variant. -/
theorem precisionFallback_variants :
    (∀ (cat : Catalog) (name : String) (d : DeviceRecord),
      List.lookup name cat = some d → d.tf32 = Option.none → fom_tf32 cat name = fom_fp32 cat name)
    ∧ (∀ (cat : Catalog) (name : String) (d : DeviceRecord),
      List.lookup name cat = some d → d.fp16 = Option.none → fom_fp16 cat name = fom_fp32 cat name) := by
  constructor
  · intro cat name d hl h
    simp [fom_tf32, fom_fp32, hl, h, pyOr]
  · intro cat name d hl h
    simp [fom_fp16, fom_fp32, hl, h, pyOr]

/-- Claim C9, witness: the fallback law applied to catalog device K80,
whose fp16 and tf32 are both absent. -/
theorem precisionFallback_variants_app :
    fom_tf32 RAWDATA "K80" = fom_fp32 RAWDATA "K80"
    ∧ fom_fp16 RAWDATA "K80" = fom_fp32 RAWDATA "K80" := by
  exact ⟨precisionFallback_variants.1 RAWDATA "K80" k80r lookup_k80 rfl,
         precisionFallback_variants.2 RAWDATA "K80" k80r lookup_k80 rfl⟩

/-- Claim C10, confirmed.  The fallback triggers on falsiness, not only on
absence: a present-but-zero fp16 (respectively tf32) value makes the
single-field variant return the fp32 value, and the patch step of the
composite computation treats a present-but-zero slot exactly as an absent
one. -/
theorem falsyFallback_zero :
    (∀ (cat : Catalog) (name : String) (d : DeviceRecord),
      List.lookup name cat = some d → d.fp16 = some 0 → fom_fp16 cat name = fom_fp32 cat name)
    ∧ (∀ (cat : Catalog) (name : String) (d : DeviceRecord),
      List.lookup name cat = some d → d.tf32 = some 0 → fom_tf32 cat name = fom_fp32 cat name)
    ∧ (∀ r : DeviceRecord,
      patchRecord { r with fp16 := some 0 } = patchRecord { r with fp16 := Option.none })
    ∧ (∀ r : DeviceRecord,
      patchRecord { r with tf32 := some 0 } = patchRecord { r with tf32 := Option.none }) := by
  refine ⟨?_, ?_, ?_, ?_⟩
  · intro cat name d hl h
    simp [fom_fp16, fom_fp32, hl, h, pyOr]
  · intro cat name d hl h
    simp [fom_tf32, fom_fp32, hl, h, pyOr]
  · intro r
    simp [patchRecord, pyOr]
  · intro r
    simp [patchRecord, pyOr]

/-- Claim C10, witness: the falsy-fallback statement applied to a record
whose fp16 and tf32 are present and zero. -/
theorem falsyFallback_zero_app :
    fom_fp16 tcat "Z0" = fom_fp32 tcat "Z0"
    ∧ fom_tf32 tcat "Z0" = fom_fp32 tcat "Z0" := by
  exact ⟨falsyFallback_zero.1 tcat "Z0" ⟨some 0, 2, 1, some 0, 3, 4, 5, ""⟩ rfl rfl,
         falsyFallback_zero.2.1 tcat "Z0" ⟨some 0, 2, 1, some 0, 3, 4, 5, ""⟩ rfl rfl⟩

end Iguane
